import Mathlib

/-!
Verification of the connector-routing geometry of the diagram scripts
(er_diagram.py, db_schema_diagram.py).  The scripts' float arithmetic is
modelled exactly over the rationals; the only irrational step, dividing a
direction vector by its Euclidean norm, is eliminated algebraically where
possible (the border-clipping branch depends on the unit vector only through
sign tests, absolute-value comparisons and the ratio dy/dx, all of which are
rational) and kept as an explicit unit-vector parameter elsewhere.
-/

/-- A 2D point with rational coordinates. -/
structure Point where
  x : ℚ
  y : ℚ
deriving DecidableEq, Repr

/-- A drawn line segment, from a to b (one ax.plot call). -/
structure Seg where
  a : Point
  b : Point
deriving DecidableEq, Repr

/-- An axis-aligned rectangle given by origin, width and height, matching the
first four components of an entity tuple in er_diagram.py (lines 19-69). -/
structure Rect where
  x : ℚ
  y : ℚ
  w : ℚ
  h : ℚ
deriving DecidableEq, Repr

/-- Center x coordinate: entity[0] + entity[2]/2 (er_diagram.py line 134). -/
def Rect.cx (r : Rect) : ℚ := r.x + r.w / 2

/-- Center y coordinate: entity[1] + entity[3]/2 (er_diagram.py line 135). -/
def Rect.cy (r : Rect) : ℚ := r.y + r.h / 2

/-- Center-to-center x component dx = end_x - start_x (er_diagram.py line 140). -/
def ddx (s e : Rect) : ℚ := e.cx - s.cx

/-- Center-to-center y component dy = end_y - start_y (er_diagram.py line 141). -/
def ddy (s e : Rect) : ℚ := e.cy - s.cy

/-- Python's built-in abs on a rational value, written out so that concrete
instances evaluate by kernel reduction; it agrees with Mathlib's absolute
value (see rabs_eq_abs). -/
def rabs (q : ℚ) : ℚ := if q < 0 then -q else q

/-- The run-time failures the relationship loop of er_diagram.py can raise:
a ZeroDivisionError (division of a float by the integer zero fallback of
lines 147-148) or an IndexError (out-of-range entity list subscript,
lines 130-131). -/
inductive ScriptError
  | zeroDivision
  | indexError
deriving DecidableEq, Repr

/-- Border clipping of er_diagram.py lines 140-178, exact over the rationals.

The script normalizes (dx, dy) by length = sqrt(dx^2 + dy^2) when
length > 0 and otherwise sets (udx, udy) = (0, 0) (lines 144-148).  The
clipping branch reads the unit vector only through
  abs(udx) > abs(udy)  which equals  abs dx > abs dy,
  udx > 0              which equals  dx > 0   (and likewise for udy), and
  udy * ((sx - scx) / udx)  which equals  dy * ((sx - scx) / dx),
so the computation below is the same real-number computation without the
irrational norm.  When the two centers coincide the script takes the
vertical branch with udy = 0 (an integer) and line 174 raises
ZeroDivisionError; that is the error case below (inside the else-branch,
dy = 0 forces dx = 0 because abs dx is not greater than abs dy). -/
def routeEndpoints (s e : Rect) : Except ScriptError (Point × Point) :=
  let dx := ddx s e
  let dy := ddy s e
  if rabs dx > rabs dy then
    -- horizontal dominant (lines 151-164); here dx is nonzero
    let sx := if dx > 0 then s.x + s.w else s.x
    let ex := if dx > 0 then e.x else e.x + e.w
    .ok (⟨sx, s.cy + dy * ((sx - s.cx) / dx)⟩,
         ⟨ex, e.cy + dy * ((ex - e.cx) / dx)⟩)
  else if dy = 0 then
    -- degenerate: coinciding centers; line 174 divides by udy = 0
    .error ScriptError.zeroDivision
  else
    -- vertical dominant (lines 165-178); here dy is nonzero
    let sy := if dy > 0 then s.y + s.h else s.y
    let ey := if dy > 0 then e.y else e.y + e.h
    .ok (⟨s.cx + dx * ((sy - s.cy) / dy), sy⟩,
         ⟨e.cx + dx * ((ey - e.cy) / dy), ey⟩)

/-- The three relationship kinds of er_diagram.py line 93. -/
inductive RelType
  | oneToMany
  | manyToMany
  | oneToOne
deriving DecidableEq, Repr

/-- One drawing command appended to the axis by the relationship loop:
the connector line (ax.plot, line 181), the "1" multiplicity text
(ax.text, line 188; the label sits at p + 0.02 * dir / norm dir, the
normalization being kept symbolic in the dir field), or the crow's-foot
marker (the three ax.plot calls of lines 200-205; dir is the recomputed
end - start vector of lines 192-193, and the three tines for the
normalized direction are given by crowFootSegs below). -/
inductive Cmd
  | line (sg : Seg)
  | oneLabel (p : Point) (dir : Point)
  | crowFoot (p : Point) (dir : Point)
deriving DecidableEq, Repr

/-- The commands emitted for one relationship (er_diagram.py lines 180-205):
the connector line always, and for a one-to-many relationship additionally
the "1" label near the clipped start point (offset along the original
center-to-center direction, line 186) and the crow's foot at the clipped
end point (direction recomputed from the clipped points, lines 192-193).
The other two relationship kinds have no decoration branch in the source. -/
def relCmds (s e : Rect) (t : RelType) : Except ScriptError (List Cmd) :=
  match routeEndpoints s e with
  | .error err => .error err
  | .ok (p, q) =>
    match t with
    | RelType.oneToMany =>
        .ok [Cmd.line ⟨p, q⟩,
             Cmd.oneLabel p ⟨ddx s e, ddy s e⟩,
             Cmd.crowFoot q ⟨q.x - p.x, q.y - p.y⟩]
    | _ => .ok [Cmd.line ⟨p, q⟩]

/-- An entity tuple [x, y, w, h, color, name, fields] of er_diagram.py
lines 19-69. -/
structure Entity where
  x : ℚ
  y : ℚ
  w : ℚ
  h : ℚ
  color : String
  name : String
  fields : List String
deriving DecidableEq, Repr

/-- The rectangle of an entity (its first four tuple components). -/
def Entity.rect (e : Entity) : Rect := ⟨e.x, e.y, e.w, e.h⟩

/-- A relationship tuple (start index, end index, type) of er_diagram.py
lines 94-126. -/
structure RelSpec where
  start_idx : Nat
  end_idx : Nat
  rel_type : RelType
deriving DecidableEq, Repr

/-- Entity lookup entities[i] (er_diagram.py lines 130-131); an
out-of-range subscript raises IndexError. -/
def lookupEnt (ents : List Entity) (i : Nat) : Except ScriptError Entity :=
  match ents.get? i with
  | some e => .ok e
  | none => .error ScriptError.indexError

/-- The relationship-drawing loop of er_diagram.py lines 129-205, modelled
as appending drawing commands to the axis state (canvas).  A raised
exception aborts the whole loop: the figure is saved only after the loop
(line 224), so on any error no diagram output is produced at all. -/
def drawRelationships (ents : List Entity) (canvas : List Cmd) :
    List RelSpec → Except ScriptError (List Cmd)
  | [] => .ok canvas
  | r :: rs =>
    match lookupEnt ents r.start_idx with
    | .error err => .error err
    | .ok s =>
      match lookupEnt ents r.end_idx with
      | .error err => .error err
      | .ok e =>
        match relCmds s.rect e.rect r.rel_type with
        | .error err => .error err
        | .ok cs => drawRelationships ents (canvas ++ cs) rs

/-- The three crow's-foot tines (er_diagram.py lines 196-205, identically
db_schema_diagram.py lines 238-246) for clipped endpoint (ex, ey) and unit
connector direction (udx, udy): perpendicular (perpx, perpy) = (-udy, udx),
foot_size = 0.01, and three segments all starting at the endpoint.  The
unit vector is a parameter because its norm is irrational in general; its
defining property udx^2 + udy^2 = 1 appears as a hypothesis in theorems. -/
def crowFootSegs (ex ey udx udy : ℚ) : List Seg :=
  let perpx := -udy
  let perpy := udx
  let f : ℚ := 1/100
  [⟨⟨ex, ey⟩, ⟨ex - udx * f, ey - udy * f⟩⟩,
   ⟨⟨ex, ey⟩, ⟨ex - udx * f + perpx * f, ey - udy * f + perpy * f⟩⟩,
   ⟨⟨ex, ey⟩, ⟨ex - udx * f - perpx * f, ey - udy * f - perpy * f⟩⟩]

instance {ε α : Type} [DecidableEq ε] [DecidableEq α] : DecidableEq (Except ε α)
  | Except.error a, Except.error b => decidable_of_iff (a = b) (by simp)
  | Except.error _, Except.ok _ => isFalse (fun h => Except.noConfusion h)
  | Except.ok _, Except.error _ => isFalse (fun h => Except.noConfusion h)
  | Except.ok a, Except.ok b => decidable_of_iff (a = b) (by simp)

/-- Specification predicate: the point lies exactly on the boundary of the
rectangle, that is within its closed extent and on one of the four edges
(section 8 of the design, first testable property). -/
def onBoundary (r : Rect) (p : Point) : Prop :=
  (r.x ≤ p.x ∧ p.x ≤ r.x + r.w ∧ r.y ≤ p.y ∧ p.y ≤ r.y + r.h) ∧
  (p.x = r.x ∨ p.x = r.x + r.w ∨ p.y = r.y ∨ p.y = r.y + r.h)

instance (r : Rect) (p : Point) : Decidable (onBoundary r p) := by
  unfold onBoundary; infer_instance

/-- Specification predicate for the amended boundary claim: the cross-axis
slope of the direction (dx, dy) does not exceed the aspect ratio of the
rectangle in whichever branch the comparison of rabs dx and rabs dy
selects.  Elongated rectangles violating it make the clipped point land
outside the rectangle, past a corner. -/
def aspectOk (r : Rect) (dx dy : ℚ) : Prop :=
  (rabs dx > rabs dy → rabs dy * r.w ≤ rabs dx * r.h) ∧
  (¬ rabs dx > rabs dy → rabs dx * r.h ≤ rabs dy * r.w)

instance (r : Rect) (dx dy : ℚ) : Decidable (aspectOk r dx dy) := by
  unfold aspectOk; infer_instance

/-- Reflection of p across the line through a with unit direction u (the
connector axis); used to state that the two slanted crow's-foot tine tips
mirror each other across the connector. -/
def reflectAcross (a u p : Point) : Point :=
  let wx := p.x - a.x
  let wy := p.y - a.y
  let d := wx * u.x + wy * u.y
  ⟨a.x + 2 * d * u.x - wx, a.y + 2 * d * u.y - wy⟩

/-- Number of "1" multiplicity labels among the drawn commands. -/
def countOnes : List Cmd → Nat
  | [] => 0
  | Cmd.oneLabel _ _ :: cs => countOnes cs + 1
  | _ :: cs => countOnes cs

/-- Number of crow's-foot markers among the drawn commands. -/
def countFeet : List Cmd → Nat
  | [] => 0
  | Cmd.crowFoot _ _ :: cs => countFeet cs + 1
  | _ :: cs => countFeet cs

/-- The duplicate-registration failure of the assembler (section 7). -/
inductive RegError
  | duplicateEntityId (id : String)
deriving DecidableEq, Repr

/-- Modelled from the spec: the diagram assembler of section 4.3 accumulates
entities under unique string identifiers.  This component is absent from
the source scripts, which hard-code the entity list with no identifiers and
no registration step (er_diagram.py lines 19-69); only its entity store is
modelled here, from the words of sections 4.3 and 7. -/
structure Diagram where
  entries : List (String × Entity)
deriving DecidableEq

/-- Whether an identifier is already registered in the diagram. -/
def hasId (d : Diagram) (i : String) : Bool :=
  d.entries.any (fun p => p.1 == i)

/-- Modelled from the spec: entity registration of sections 4.3 and 7 --
rejecting duplicate ids: the second registration under an existing id is
rejected and reported with DuplicateEntityId while the first stands.  This
operation is absent from the source scripts (the entity list is a literal). -/
def registerEntity (d : Diagram) (i : String) (e : Entity) :
    Diagram × List RegError :=
  if hasId d i then (d, [RegError.duplicateEntityId i])
  else (⟨d.entries ++ [(i, e)]⟩, [])

/-- First-match lookup in the registration list. -/
def lookupIn : List (String × Entity) → String → Option Entity
  | [], _ => none
  | p :: ps, i => if p.1 == i then some p.2 else lookupIn ps i

/-- Entity lookup by identifier in the modelled assembler. -/
def lookupEntity (d : Diagram) (i : String) : Option Entity :=
  lookupIn d.entries i

/-- The Project entity of er_diagram.py line 21. -/
def projEntity : Entity :=
  ⟨0.1, 0.80, 0.15, 0.15, "#4C9BE8", "Project",
   ["id: UUID", "name: String", "description: String", "settings: JSON"]⟩

/-- The Character entity of er_diagram.py line 24. -/
def charEntity : Entity :=
  ⟨0.1, 0.50, 0.15, 0.20, "#4C9BE8", "Character",
   ["id: UUID", "projectId: UUID", "name: String", "bio: String",
    "personalityTraits: JSON", "characterSheet: JSON"]⟩

/-- The rectangle of the Project entity. -/
def projectRect : Rect := projEntity.rect

/-- The rectangle of the Character entity. -/
def characterRect : Rect := charEntity.rect

/-- A unit-square entity at the origin, concrete test input. -/
def entA : Entity := ⟨0, 0, 1, 1, "#AAAAAA", "A", []⟩

/-- A unit-square entity three units to the right, concrete test input. -/
def entB : Entity := ⟨3, 0, 1, 1, "#BBBBBB", "B", []⟩

/-- Unit square at the origin (rectangle of entA). -/
def sqA : Rect := ⟨0, 0, 1, 1⟩

/-- Unit square three to the right (rectangle of entB). -/
def sqB : Rect := ⟨3, 0, 1, 1⟩

/-- Unit square offset diagonally, concrete test input for the amended
boundary theorem. -/
def sqC : Rect := ⟨3, 1, 1, 1⟩

/-- A wide flat rectangle (width 1, height 1/10), source side of the
boundary counterexample. -/
def wideS : Rect := ⟨0, 0, 1, 1/10⟩

/-- A wide flat rectangle placed diagonally from wideS, target side of the
boundary counterexample. -/
def wideE : Rect := ⟨2, 1, 1, 1/10⟩

/-- A wide rectangle, source of the overlapping-rectangles input. -/
def ovS : Rect := ⟨0, 0, 4, 1⟩

/-- A wide rectangle overlapping ovS with a distinct center. -/
def ovE : Rect := ⟨1, 1/5, 4, 1⟩

/-- Concrete entity list for the missing-reference input. -/
def entsAB : List Entity := [entA, entB]

/-- Relationships where the first references the out-of-range entity index
five and the second is well-formed. -/
def relsBadFirst : List RelSpec :=
  [⟨0, 5, RelType.oneToMany⟩, ⟨0, 1, RelType.oneToMany⟩]


/-! Helper lemmas. -/

theorem rabs_eq_abs (q : ℚ) : rabs q = |q| := by
  unfold rabs
  split
  · rw [abs_of_neg (by assumption)]
  · rw [abs_of_nonneg (by linarith [not_lt.mp (by assumption : ¬ q < 0)])]

theorem rabs_nonneg (q : ℚ) : 0 ≤ rabs q := by
  rw [rabs_eq_abs]; exact abs_nonneg q

theorem rabs_zero : rabs 0 = 0 := by
  rw [rabs_eq_abs]; exact abs_zero

theorem ne_zero_of_rabs_gt (a b : ℚ) (h : rabs a > rabs b) : a ≠ 0 := by
  intro h0
  rw [h0, rabs_zero] at h
  exact absurd h (not_lt.mpr (rabs_nonneg b))

theorem clip_cross_bound (dx dy w h c : ℚ) (hdx : dx ≠ 0)
    (hb : rabs dy * w ≤ rabs dx * h) (hc : rabs c = w / 2) :
    rabs (dy * (c / dx)) ≤ h / 2 := by
  rw [rabs_eq_abs] at hb hc ⊢
  rw [rabs_eq_abs] at hb
  have hdxpos : 0 < |dx| := abs_pos.mpr hdx
  rw [abs_mul, abs_div, hc]
  have heq : |dy| * (w / 2 / |dx|) = |dy| * (w / 2) / |dx| := by ring
  rw [heq, div_le_iff₀ hdxpos]
  nlinarith [abs_nonneg dy, abs_nonneg dx]

theorem onBoundary_of_face_x (r : Rect) (f o : ℚ) (hw : 0 ≤ r.w)
    (hface : f = r.x ∨ f = r.x + r.w) (hb : rabs o ≤ r.h / 2) :
    onBoundary r ⟨f, r.cy + o⟩ := by
  rw [rabs_eq_abs] at hb
  obtain ⟨h1, h2⟩ := abs_le.mp hb
  unfold onBoundary Rect.cy
  refine ⟨⟨?_, ?_, by linarith, by linarith⟩, ?_⟩
  · rcases hface with rfl | rfl <;> linarith
  · rcases hface with rfl | rfl <;> linarith
  · rcases hface with rfl | rfl
    · exact Or.inl rfl
    · exact Or.inr (Or.inl rfl)

theorem onBoundary_of_face_y (r : Rect) (f o : ℚ) (hh : 0 ≤ r.h)
    (hface : f = r.y ∨ f = r.y + r.h) (hb : rabs o ≤ r.w / 2) :
    onBoundary r ⟨r.cx + o, f⟩ := by
  rw [rabs_eq_abs] at hb
  obtain ⟨h1, h2⟩ := abs_le.mp hb
  unfold onBoundary Rect.cx
  refine ⟨⟨by linarith, by linarith, ?_, ?_⟩, ?_⟩
  · rcases hface with rfl | rfl <;> linarith
  · rcases hface with rfl | rfl <;> linarith
  · rcases hface with rfl | rfl
    · exact Or.inr (Or.inr (Or.inl rfl))
    · exact Or.inr (Or.inr (Or.inr rfl))

theorem hface_onBoundary (r : Rect) (dx dy f : ℚ) (hdx : dx ≠ 0)
    (hw : 0 < r.w) (hface : f = r.x ∨ f = r.x + r.w)
    (hb : rabs dy * r.w ≤ rabs dx * r.h) :
    onBoundary r ⟨f, r.cy + dy * ((f - r.cx) / dx)⟩ := by
  have hc : rabs (f - r.cx) = r.w / 2 := by
    rw [rabs_eq_abs]
    unfold Rect.cx
    rcases hface with rfl | rfl
    · rw [show r.x - (r.x + r.w / 2) = -(r.w / 2) by ring, abs_neg,
          abs_of_nonneg (by linarith)]
    · rw [show r.x + r.w - (r.x + r.w / 2) = r.w / 2 by ring,
          abs_of_nonneg (by linarith)]
  exact onBoundary_of_face_x r f _ (le_of_lt hw) hface
    (clip_cross_bound dx dy r.w r.h (f - r.cx) hdx hb hc)

theorem vface_onBoundary (r : Rect) (dx dy f : ℚ) (hdy : dy ≠ 0)
    (hh : 0 < r.h) (hface : f = r.y ∨ f = r.y + r.h)
    (hb : rabs dx * r.h ≤ rabs dy * r.w) :
    onBoundary r ⟨r.cx + dx * ((f - r.cy) / dy), f⟩ := by
  have hc : rabs (f - r.cy) = r.h / 2 := by
    rw [rabs_eq_abs]
    unfold Rect.cy
    rcases hface with rfl | rfl
    · rw [show r.y - (r.y + r.h / 2) = -(r.h / 2) by ring, abs_neg,
          abs_of_nonneg (by linarith)]
    · rw [show r.y + r.h - (r.y + r.h / 2) = r.h / 2 by ring,
          abs_of_nonneg (by linarith)]
  exact onBoundary_of_face_y r f _ (le_of_lt hh) hface
    (clip_cross_bound dy dx r.h r.w (f - r.cy) hdy hb hc)

theorem param_point (c₁ c₂ dx dy f : ℚ) (hdx : dx ≠ 0) :
    ∃ t, f = c₁ + t * dx ∧ c₂ + dy * ((f - c₁) / dx) = c₂ + t * dy :=
  ⟨(f - c₁) / dx, by field_simp, by ring⟩

/-! Claim theorems. -/

/-- C6: for a pure vertical alignment of the two centers (dx = 0, dy
nonzero) the clipping step takes the vertical-dominant branch, dividing by
the nonzero dy and exiting through the top or bottom face, and for a pure
horizontal alignment (dy = 0, dx nonzero) it takes the horizontal-dominant
branch, dividing by the nonzero dx and exiting through the left or right
face; in both cases routing succeeds, so no division by zero occurs. -/
theorem axis_aligned_uses_other_face (s e : Rect) :
    (ddx s e = 0 → ddy s e ≠ 0 →
      ∃ p q, routeEndpoints s e = .ok (p, q) ∧
        (p.y = s.y ∨ p.y = s.y + s.h) ∧ (q.y = e.y ∨ q.y = e.y + e.h)) ∧
    (ddy s e = 0 → ddx s e ≠ 0 →
      ∃ p q, routeEndpoints s e = .ok (p, q) ∧
        (p.x = s.x ∨ p.x = s.x + s.w) ∧ (q.x = e.x ∨ q.x = e.x + e.w)) := by
  constructor
  · intro hx hy
    have h0 : ¬ rabs (ddx s e) > rabs (ddy s e) := by
      rw [hx, rabs_zero]
      exact not_lt.mpr (rabs_nonneg _)
    by_cases hpos : ddy s e > 0
    · refine ⟨⟨s.cx + ddx s e * ((s.y + s.h - s.cy) / ddy s e), s.y + s.h⟩,
              ⟨e.cx + ddx s e * ((e.y - e.cy) / ddy s e), e.y⟩,
              ?_, Or.inr rfl, Or.inl rfl⟩
      simp only [routeEndpoints]
      rw [if_neg h0, if_neg hy, if_pos hpos, if_pos hpos]
    · refine ⟨⟨s.cx + ddx s e * ((s.y - s.cy) / ddy s e), s.y⟩,
              ⟨e.cx + ddx s e * ((e.y + e.h - e.cy) / ddy s e), e.y + e.h⟩,
              ?_, Or.inl rfl, Or.inr rfl⟩
      simp only [routeEndpoints]
      rw [if_neg h0, if_neg hy, if_neg hpos, if_neg hpos]
  · intro hy hx
    have h0 : rabs (ddx s e) > rabs (ddy s e) := by
      rw [hy, rabs_zero, rabs_eq_abs]
      exact abs_pos.mpr hx
    by_cases hpos : ddx s e > 0
    · refine ⟨⟨s.x + s.w, s.cy + ddy s e * ((s.x + s.w - s.cx) / ddx s e)⟩,
              ⟨e.x, e.cy + ddy s e * ((e.x - e.cx) / ddx s e)⟩,
              ?_, Or.inr rfl, Or.inl rfl⟩
      simp only [routeEndpoints]
      rw [if_pos h0, if_pos hpos, if_pos hpos]
    · refine ⟨⟨s.x, s.cy + ddy s e * ((s.x - s.cx) / ddx s e)⟩,
              ⟨e.x + e.w, e.cy + ddy s e * ((e.x + e.w - e.cx) / ddx s e)⟩,
              ?_, Or.inl rfl, Or.inr rfl⟩
      simp only [routeEndpoints]
      rw [if_pos h0, if_neg hpos, if_neg hpos]

/-- Witness for C6, applying the theorem to the vertically aligned
Project/Character pair and to a horizontally aligned pair of squares. -/
theorem axis_aligned_uses_other_face_w :
    (∃ p q, routeEndpoints projectRect characterRect = .ok (p, q) ∧
        (p.y = projectRect.y ∨ p.y = projectRect.y + projectRect.h) ∧
        (q.y = characterRect.y ∨ q.y = characterRect.y + characterRect.h)) ∧
    (∃ p q, routeEndpoints sqA sqB = .ok (p, q) ∧
        (p.x = sqA.x ∨ p.x = sqA.x + sqA.w) ∧
        (q.x = sqB.x ∨ q.x = sqB.x + sqB.w)) :=
  ⟨(axis_aligned_uses_other_face projectRect characterRect).1
      (by norm_num [ddx, Rect.cx, projectRect, characterRect, projEntity,
        charEntity, Entity.rect])
      (by norm_num [ddy, Rect.cy, projectRect, characterRect, projEntity,
        charEntity, Entity.rect]),
   (axis_aligned_uses_other_face sqA sqB).2
      (by norm_num [ddy, Rect.cy, sqA, sqB])
      (by norm_num [ddx, Rect.cx, sqA, sqB])⟩

/-- C7: on the concrete Project and Character entities the routing takes
the vertical-dominant branch, clips the connector to the bottom edge of
Project (y = 0.8) and the top edge of Character (y = 0.7), and places the
crow's-foot decoration at the Character endpoint (with the "1" label at the
Project endpoint). -/
theorem project_character_clip :
    ¬ rabs (ddx projectRect characterRect) >
        rabs (ddy projectRect characterRect) ∧
    relCmds projectRect characterRect RelType.oneToMany = .ok
      [Cmd.line ⟨⟨0.175, 0.8⟩, ⟨0.175, 0.7⟩⟩,
       Cmd.oneLabel ⟨0.175, 0.8⟩ ⟨0, -0.275⟩,
       Cmd.crowFoot ⟨0.175, 0.7⟩ ⟨0, -0.1⟩] ∧
    (0.8 : ℚ) = projectRect.y ∧
    (0.7 : ℚ) = characterRect.y + characterRect.h := by
  have hroute : routeEndpoints projectRect characterRect =
      .ok (⟨0.175, 0.8⟩, ⟨0.175, 0.7⟩) := by
    norm_num [routeEndpoints, ddx, ddy, Rect.cx, Rect.cy, rabs,
      projectRect, characterRect, projEntity, charEntity, Entity.rect]
  refine ⟨?_, ?_, ?_, ?_⟩
  · norm_num [ddx, ddy, Rect.cx, Rect.cy, rabs,
      projectRect, characterRect, projEntity, charEntity, Entity.rect]
  · unfold relCmds
    rw [hroute]
    norm_num [ddx, ddy, Rect.cx, Rect.cy,
      projectRect, characterRect, projEntity, charEntity, Entity.rect]
  · norm_num [projectRect, projEntity, Entity.rect]
  · norm_num [characterRect, charEntity, Entity.rect]

/-- C9 (amended): every successfully clipped endpoint pair lies on the
straight line through the two rectangle centers: each point is its own
rectangle's center plus a scalar multiple of the center-to-center vector
(dx, dy). -/
theorem route_on_center_line (s e : Rect) (p q : Point)
    (h : routeEndpoints s e = .ok (p, q)) :
    ∃ t₁ t₂ : ℚ,
      p.x = s.cx + t₁ * ddx s e ∧ p.y = s.cy + t₁ * ddy s e ∧
      q.x = e.cx + t₂ * ddx s e ∧ q.y = e.cy + t₂ * ddy s e := by
  simp only [routeEndpoints] at h
  by_cases hd : rabs (ddx s e) > rabs (ddy s e)
  · rw [if_pos hd] at h
    have hdx : ddx s e ≠ 0 := ne_zero_of_rabs_gt _ _ hd
    rw [Except.ok.injEq, Prod.mk.injEq] at h
    obtain ⟨hp, hq⟩ := h
    obtain ⟨t₁, ht₁, ht₁'⟩ := param_point s.cx s.cy (ddx s e) (ddy s e)
      (if ddx s e > 0 then s.x + s.w else s.x) hdx
    obtain ⟨t₂, ht₂, ht₂'⟩ := param_point e.cx e.cy (ddx s e) (ddy s e)
      (if ddx s e > 0 then e.x else e.x + e.w) hdx
    exact ⟨t₁, t₂, by rw [← hp, ht₁], by rw [← hp]; exact ht₁',
           by rw [← hq, ht₂], by rw [← hq]; exact ht₂'⟩
  · rw [if_neg hd] at h
    by_cases hz : ddy s e = 0
    · rw [if_pos hz] at h; exact absurd h (by simp)
    · rw [if_neg hz] at h
      rw [Except.ok.injEq, Prod.mk.injEq] at h
      obtain ⟨hp, hq⟩ := h
      obtain ⟨t₁, ht₁, ht₁'⟩ := param_point s.cy s.cx (ddy s e) (ddx s e)
        (if ddy s e > 0 then s.y + s.h else s.y) hz
      obtain ⟨t₂, ht₂, ht₂'⟩ := param_point e.cy e.cx (ddy s e) (ddx s e)
        (if ddy s e > 0 then e.y else e.y + e.h) hz
      exact ⟨t₁, t₂, by rw [← hp]; exact ht₁', by rw [← hp, ht₁],
             by rw [← hq]; exact ht₂', by rw [← hq, ht₂]⟩

/-- Witness for C9, applying the theorem to the concrete square pair. -/
theorem route_on_center_line_w :
    routeEndpoints sqA sqB = .ok (⟨1, 1/2⟩, ⟨3, 1/2⟩) ∧
    ∃ t₁ t₂ : ℚ,
      (Point.mk 1 (1/2)).x = sqA.cx + t₁ * ddx sqA sqB ∧
      (Point.mk 1 (1/2)).y = sqA.cy + t₁ * ddy sqA sqB ∧
      (Point.mk 3 (1/2)).x = sqB.cx + t₂ * ddx sqA sqB ∧
      (Point.mk 3 (1/2)).y = sqB.cy + t₂ * ddy sqA sqB := by
  have h : routeEndpoints sqA sqB = .ok (⟨1, 1/2⟩, ⟨3, 1/2⟩) := by
    norm_num [routeEndpoints, ddx, ddy, Rect.cx, Rect.cy, rabs, sqA, sqB]
  exact ⟨h, route_on_center_line sqA sqB _ _ h⟩

/-- Counterexample for C9 as stated: for two overlapping rectangles with
distinct centers the connector is clipped to a segment on the center line
whose direction is opposite to the center-to-center direction (their dot
product is negative), so clipping does not leave the direction unchanged. -/
theorem route_direction_flips_cex :
    routeEndpoints ovS ovE = .ok (⟨4, 9/10⟩, ⟨1, 3/10⟩) ∧
    ((1 : ℚ) - 4) * ddx ovS ovE + ((3/10 : ℚ) - 9/10) * ddy ovS ovE < 0 := by
  constructor <;>
    norm_num [routeEndpoints, ddx, ddy, Rect.cx, Rect.cy, rabs, ovS, ovE]

theorem draw_shift (ents : List Entity) :
    ∀ rels c₁ c₂, drawRelationships ents (c₁ ++ c₂) rels =
      (drawRelationships ents c₂ rels).map (fun l => c₁ ++ l) := by
  intro rels
  induction rels with
  | nil => intro c₁ c₂; rfl
  | cons r rs ih =>
    intro c₁ c₂
    cases hx : lookupEnt ents r.start_idx with
    | error err => simp [drawRelationships, hx, Except.map]
    | ok s =>
      cases hy : lookupEnt ents r.end_idx with
      | error err => simp [drawRelationships, hx, hy, Except.map]
      | ok e =>
        cases hz : relCmds s.rect e.rect r.rel_type with
        | error err => simp [drawRelationships, hx, hy, hz, Except.map]
        | ok cs =>
          simp only [drawRelationships, hx, hy, hz]
          rw [List.append_assoc]
          exact ih c₁ (c₂ ++ cs)

/-- C5: the relationship layout is deterministic and side-effect-free in
the append-only canvas model: the drawn geometry is a pure function of the
entities and relationships alone, appended after whatever the canvas
already holds, so repeating the layout on unchanged input reproduces
identical connector endpoints and decorations regardless of any prior
canvas state. -/
theorem layout_deterministic (ents : List Entity) (rels : List RelSpec)
    (canvas : List Cmd) :
    drawRelationships ents canvas rels =
      (drawRelationships ents [] rels).map (fun l => canvas ++ l) := by
  have h := draw_shift ents rels canvas []
  rw [List.append_nil] at h
  exact h

/-- C3: a relationship from the Project entity to itself has coinciding
centers; the routing division by the zero fallback direction raises
ZeroDivisionError and the whole drawing run aborts with that error,
producing no output at all (rather than recording a per-relationship
error and continuing). -/
theorem selfLoop_zeroDivision :
    drawRelationships [projEntity] [] [⟨0, 0, RelType.oneToMany⟩] =
      .error ScriptError.zeroDivision := by
  have hroute : routeEndpoints projEntity.rect projEntity.rect =
      .error ScriptError.zeroDivision := by
    norm_num [routeEndpoints, ddx, ddy, Rect.cx, Rect.cy, rabs,
      projEntity, Entity.rect]
  have hrel : relCmds projEntity.rect projEntity.rect RelType.oneToMany =
      .error ScriptError.zeroDivision := by
    unfold relCmds
    rw [hroute]
  simp only [drawRelationships, lookupEnt, List.get?]
  rw [hrel]

theorem lookupEnt_oob (ents : List Entity) (i : Nat) (h : ents.length ≤ i) :
    lookupEnt ents i = .error ScriptError.indexError := by
  unfold lookupEnt
  rw [List.get?_eq_none.mpr h]

/-- C4 (amended): a relationship referencing an entity index that is not
present in the entity list makes the whole drawing loop abort with an
error: no command list is produced for any relationship, and no error
record is emitted alongside partial output. -/
theorem unknown_reference_aborts (ents : List Entity) (canvas : List Cmd)
    (rels : List RelSpec)
    (h : ∃ r ∈ rels, ents.length ≤ r.start_idx ∨ ents.length ≤ r.end_idx) :
    ∃ err, drawRelationships ents canvas rels = .error err := by
  induction rels generalizing canvas with
  | nil => simp at h
  | cons r rs ih =>
    rcases h with ⟨r', hr', hlen⟩
    rcases List.mem_cons.mp hr' with rfl | hmem
    · rcases hlen with hs | he
      · exact ⟨ScriptError.indexError,
          by simp [drawRelationships, lookupEnt_oob ents _ hs]⟩
      · cases hx : lookupEnt ents r'.start_idx with
        | error err => exact ⟨err, by simp [drawRelationships, hx]⟩
        | ok s =>
          exact ⟨ScriptError.indexError,
            by simp [drawRelationships, hx, lookupEnt_oob ents _ he]⟩
    · cases hx : lookupEnt ents r.start_idx with
      | error err => exact ⟨err, by simp [drawRelationships, hx]⟩
      | ok s =>
        cases hy : lookupEnt ents r.end_idx with
        | error err => exact ⟨err, by simp [drawRelationships, hx, hy]⟩
        | ok e =>
          cases hz : relCmds s.rect e.rect r.rel_type with
          | error err => exact ⟨err, by simp [drawRelationships, hx, hy, hz]⟩
          | ok cs =>
            obtain ⟨err, herr⟩ := ih (canvas ++ cs) ⟨r', hmem, hlen⟩
            exact ⟨err, by simp only [drawRelationships, hx, hy, hz]; exact herr⟩

/-- Witness for C4's amended theorem at a concrete two-entity diagram with
an out-of-range reference. -/
theorem unknown_reference_aborts_w :
    (∃ r ∈ relsBadFirst,
        entsAB.length ≤ r.start_idx ∨ entsAB.length ≤ r.end_idx) ∧
    ∃ err, drawRelationships entsAB [] relsBadFirst = .error err := by
  have h : ∃ r ∈ relsBadFirst,
      entsAB.length ≤ r.start_idx ∨ entsAB.length ≤ r.end_idx :=
    ⟨⟨0, 5, RelType.oneToMany⟩, by decide, Or.inr (by decide)⟩
  exact ⟨h, unknown_reference_aborts entsAB [] relsBadFirst h⟩

/-- Counterexample for C4 as stated: with a bad first relationship and a
well-formed second one, the run aborts with IndexError; the well-formed
relationship is not routed and there is no error-plus-connectors output. -/
theorem missing_entity_aborts_cex :
    drawRelationships entsAB [] relsBadFirst =
      .error ScriptError.indexError := by
  rfl

/-- C2 (amended): the decorations a routed relationship receives depend
only on the cardinality, but only the one-to-many kind attaches any:
one-to-many yields exactly one "1" label at the clipped source endpoint
and exactly one crow's-foot at the clipped target endpoint, while
many-to-many and one-to-one relationships are drawn as a plain segment
with zero decorations (the source has no decoration branch for them). -/
theorem relCmds_decorations (s e : Rect) (t : RelType) (cs : List Cmd)
    (h : relCmds s e t = .ok cs) :
    (t = RelType.oneToMany → ∃ p q, routeEndpoints s e = .ok (p, q) ∧
        cs = [Cmd.line ⟨p, q⟩, Cmd.oneLabel p ⟨ddx s e, ddy s e⟩,
              Cmd.crowFoot q ⟨q.x - p.x, q.y - p.y⟩] ∧
        countOnes cs = 1 ∧ countFeet cs = 1) ∧
    (t = RelType.manyToMany → countOnes cs = 0 ∧ countFeet cs = 0) ∧
    (t = RelType.oneToOne → countOnes cs = 0 ∧ countFeet cs = 0) := by
  unfold relCmds at h
  cases hr : routeEndpoints s e with
  | error err =>
    rw [hr] at h
    exact absurd h (by simp)
  | ok pq =>
    obtain ⟨p, q⟩ := pq
    rw [hr] at h
    cases t with
    | oneToMany =>
      injection h with h3
      refine ⟨fun _ => ⟨p, q, rfl, h3.symm, ?_, ?_⟩,
              fun ht => absurd ht (by decide), fun ht => absurd ht (by decide)⟩
        <;> rw [← h3] <;> rfl
    | manyToMany =>
      injection h with h3
      exact ⟨fun ht => absurd ht (by decide),
             fun _ => by rw [← h3]; exact ⟨rfl, rfl⟩,
             fun ht => absurd ht (by decide)⟩
    | oneToOne =>
      injection h with h3
      exact ⟨fun ht => absurd ht (by decide),
             fun ht => absurd ht (by decide),
             fun _ => by rw [← h3]; exact ⟨rfl, rfl⟩⟩

/-- Witness for C2's amended theorem on the concrete square pair with a
one-to-many relationship. -/
theorem relCmds_decorations_w :
    relCmds sqA sqB RelType.oneToMany = .ok
      [Cmd.line ⟨⟨1, 1/2⟩, ⟨3, 1/2⟩⟩,
       Cmd.oneLabel ⟨1, 1/2⟩ ⟨3, 0⟩,
       Cmd.crowFoot ⟨3, 1/2⟩ ⟨2, 0⟩] ∧
    (∃ p q, routeEndpoints sqA sqB = .ok (p, q) ∧
        [Cmd.line ⟨⟨1, 1/2⟩, ⟨3, 1/2⟩⟩,
         Cmd.oneLabel ⟨1, 1/2⟩ ⟨3, 0⟩,
         Cmd.crowFoot ⟨3, 1/2⟩ ⟨2, 0⟩] =
          [Cmd.line ⟨p, q⟩, Cmd.oneLabel p ⟨ddx sqA sqB, ddy sqA sqB⟩,
           Cmd.crowFoot q ⟨q.x - p.x, q.y - p.y⟩] ∧
        countOnes [Cmd.line ⟨⟨1, 1/2⟩, ⟨3, 1/2⟩⟩,
         Cmd.oneLabel ⟨1, 1/2⟩ ⟨3, 0⟩,
         Cmd.crowFoot ⟨3, 1/2⟩ ⟨2, 0⟩] = 1 ∧
        countFeet [Cmd.line ⟨⟨1, 1/2⟩, ⟨3, 1/2⟩⟩,
         Cmd.oneLabel ⟨1, 1/2⟩ ⟨3, 0⟩,
         Cmd.crowFoot ⟨3, 1/2⟩ ⟨2, 0⟩] = 1) := by
  have hroute : routeEndpoints sqA sqB = .ok (⟨1, 1/2⟩, ⟨3, 1/2⟩) := by
    norm_num [routeEndpoints, ddx, ddy, Rect.cx, Rect.cy, rabs, sqA, sqB]
  have h : relCmds sqA sqB RelType.oneToMany = .ok
      [Cmd.line ⟨⟨1, 1/2⟩, ⟨3, 1/2⟩⟩,
       Cmd.oneLabel ⟨1, 1/2⟩ ⟨3, 0⟩,
       Cmd.crowFoot ⟨3, 1/2⟩ ⟨2, 0⟩] := by
    unfold relCmds
    rw [hroute]
    norm_num [ddx, ddy, Rect.cx, Rect.cy, sqA, sqB]
  exact ⟨h, (relCmds_decorations sqA sqB RelType.oneToMany _ h).1 rfl⟩

/-- Counterexample for C2 as stated: a many-to-many relationship between
the concrete squares is routed as a bare segment with zero decorations,
not with a crow's foot at both endpoints. -/
theorem manyToMany_no_decorations_cex :
    relCmds sqA sqB RelType.manyToMany =
      .ok [Cmd.line ⟨⟨1, 1/2⟩, ⟨3, 1/2⟩⟩] ∧
    countFeet [Cmd.line ⟨⟨1, 1/2⟩, ⟨3, 1/2⟩⟩] = 0 := by
  have hroute : routeEndpoints sqA sqB = .ok (⟨1, 1/2⟩, ⟨3, 1/2⟩) := by
    norm_num [routeEndpoints, ddx, ddy, Rect.cx, Rect.cy, rabs, sqA, sqB]
  refine ⟨?_, rfl⟩
  unfold relCmds
  rw [hroute]

theorem lookupIn_append_fresh (l : List (String × Entity)) (i : String)
    (e : Entity) (h : l.any (fun p => p.1 == i) = false) :
    lookupIn (l ++ [(i, e)]) i = some e := by
  induction l with
  | nil => simp [lookupIn]
  | cons p ps ih =>
    rw [List.any_cons, Bool.or_eq_false_iff] at h
    rw [List.cons_append]
    simp only [lookupIn, h.1]
    simpa using ih h.2

/-- C8: registering a second entity under an already registered identifier
is rejected and reported with DuplicateEntityId, the diagram is left
exactly as it was, and looking the identifier up still yields the first
entity unchanged (its rectangle, label and fields included), while the
first registration itself succeeded without error. -/
theorem register_duplicate (d : Diagram) (i : String) (e₁ e₂ : Entity)
    (h : hasId d i = false) :
    (registerEntity d i e₁).2 = [] ∧
    registerEntity (registerEntity d i e₁).1 i e₂ =
      ((registerEntity d i e₁).1, [RegError.duplicateEntityId i]) ∧
    lookupEntity (registerEntity d i e₁).1 i = some e₁ := by
  have h1 : registerEntity d i e₁ = (⟨d.entries ++ [(i, e₁)]⟩, []) := by
    unfold registerEntity
    rw [h]
    simp
  have h2 : hasId ⟨d.entries ++ [(i, e₁)]⟩ i = true := by
    unfold hasId
    rw [List.any_append]
    simp
  rw [h1]
  refine ⟨rfl, ?_, ?_⟩
  · unfold registerEntity
    rw [h2]
    simp
  · unfold lookupEntity
    exact lookupIn_append_fresh d.entries i e₁ (by unfold hasId at h; exact h)

/-- Witness for C8: registering entA as "X" into the empty diagram, then
entB under the same id. -/
theorem register_duplicate_w :
    hasId ⟨[]⟩ "X" = false ∧
    ((registerEntity ⟨[]⟩ "X" entA).2 = [] ∧
     registerEntity (registerEntity ⟨[]⟩ "X" entA).1 "X" entB =
       ((registerEntity ⟨[]⟩ "X" entA).1, [RegError.duplicateEntityId "X"]) ∧
     lookupEntity (registerEntity ⟨[]⟩ "X" entA).1 "X" = some entA) :=
  ⟨rfl, register_duplicate ⟨[]⟩ "X" entA entB rfl⟩

/-- C1 (amended): for rectangles with positive width and height and
distinct centers, the clipped point of each rectangle lies exactly on its
boundary provided the direction's cross-axis slope does not exceed that
rectangle's aspect ratio (rabs dy * w <= rabs dx * h in the
horizontal-dominant branch and rabs dx * h <= rabs dy * w in the vertical
branch, as always holds for squares); without this proviso the computed
exit point can land strictly outside the rectangle, past a corner. -/
theorem clip_onBoundary_amended (s e : Rect)
    (hsw : 0 < s.w) (hsh : 0 < s.h) (hew : 0 < e.w) (heh : 0 < e.h)
    (hcc : ¬ (ddx s e = 0 ∧ ddy s e = 0))
    (has : aspectOk s (ddx s e) (ddy s e))
    (hae : aspectOk e (ddx s e) (ddy s e)) :
    ∃ p q, routeEndpoints s e = .ok (p, q) ∧
      onBoundary s p ∧ onBoundary e q := by
  by_cases hd : rabs (ddx s e) > rabs (ddy s e)
  · have hdx : ddx s e ≠ 0 := ne_zero_of_rabs_gt _ _ hd
    have hbs := has.1 hd
    have hbe := hae.1 hd
    by_cases hpos : ddx s e > 0
    · refine ⟨⟨s.x + s.w, s.cy + ddy s e * ((s.x + s.w - s.cx) / ddx s e)⟩,
              ⟨e.x, e.cy + ddy s e * ((e.x - e.cx) / ddx s e)⟩, ?_, ?_, ?_⟩
      · simp only [routeEndpoints]
        rw [if_pos hd, if_pos hpos, if_pos hpos]
      · exact hface_onBoundary s (ddx s e) (ddy s e) (s.x + s.w) hdx hsw
          (Or.inr rfl) hbs
      · exact hface_onBoundary e (ddx s e) (ddy s e) e.x hdx hew
          (Or.inl rfl) hbe
    · refine ⟨⟨s.x, s.cy + ddy s e * ((s.x - s.cx) / ddx s e)⟩,
              ⟨e.x + e.w, e.cy + ddy s e * ((e.x + e.w - e.cx) / ddx s e)⟩,
              ?_, ?_, ?_⟩
      · simp only [routeEndpoints]
        rw [if_pos hd, if_neg hpos, if_neg hpos]
      · exact hface_onBoundary s (ddx s e) (ddy s e) s.x hdx hsw
          (Or.inl rfl) hbs
      · exact hface_onBoundary e (ddx s e) (ddy s e) (e.x + e.w) hdx hew
          (Or.inr rfl) hbe
  · have hdy : ddy s e ≠ 0 := by
      intro h0
      apply hcc
      refine ⟨?_, h0⟩
      have h1 := not_lt.mp hd
      rw [h0, rabs_zero] at h1
      have h3 : rabs (ddx s e) = 0 := le_antisymm h1 (rabs_nonneg _)
      rw [rabs_eq_abs] at h3
      exact abs_eq_zero.mp h3
    have hbs := has.2 hd
    have hbe := hae.2 hd
    by_cases hpos : ddy s e > 0
    · refine ⟨⟨s.cx + ddx s e * ((s.y + s.h - s.cy) / ddy s e), s.y + s.h⟩,
              ⟨e.cx + ddx s e * ((e.y - e.cy) / ddy s e), e.y⟩, ?_, ?_, ?_⟩
      · simp only [routeEndpoints]
        rw [if_neg hd, if_neg hdy, if_pos hpos, if_pos hpos]
      · exact vface_onBoundary s (ddx s e) (ddy s e) (s.y + s.h) hdy hsh
          (Or.inr rfl) hbs
      · exact vface_onBoundary e (ddx s e) (ddy s e) e.y hdy heh
          (Or.inl rfl) hbe
    · refine ⟨⟨s.cx + ddx s e * ((s.y - s.cy) / ddy s e), s.y⟩,
              ⟨e.cx + ddx s e * ((e.y + e.h - e.cy) / ddy s e), e.y + e.h⟩,
              ?_, ?_, ?_⟩
      · simp only [routeEndpoints]
        rw [if_neg hd, if_neg hdy, if_neg hpos, if_neg hpos]
      · exact vface_onBoundary s (ddx s e) (ddy s e) s.y hdy hsh
          (Or.inl rfl) hbs
      · exact vface_onBoundary e (ddx s e) (ddy s e) (e.y + e.h) hdy heh
          (Or.inr rfl) hbe

/-- Witness for C1's amended theorem on two unit squares placed
diagonally. -/
theorem clip_onBoundary_amended_w :
    (0 : ℚ) < sqA.w ∧ (0 : ℚ) < sqA.h ∧ (0 : ℚ) < sqC.w ∧ (0 : ℚ) < sqC.h ∧
    ¬ (ddx sqA sqC = 0 ∧ ddy sqA sqC = 0) ∧
    aspectOk sqA (ddx sqA sqC) (ddy sqA sqC) ∧
    aspectOk sqC (ddx sqA sqC) (ddy sqA sqC) ∧
    ∃ p q, routeEndpoints sqA sqC = .ok (p, q) ∧
      onBoundary sqA p ∧ onBoundary sqC q := by
  refine ⟨by norm_num [sqA], by norm_num [sqA], by norm_num [sqC],
          by norm_num [sqC], ?_, ?_, ?_, ?_⟩
  · norm_num [ddx, Rect.cx, sqA, sqC]
  · norm_num [aspectOk, rabs, ddx, ddy, Rect.cx, Rect.cy, sqA, sqC]
  · norm_num [aspectOk, rabs, ddx, ddy, Rect.cx, Rect.cy, sqA, sqC]
  · exact clip_onBoundary_amended sqA sqC
      (by norm_num [sqA]) (by norm_num [sqA])
      (by norm_num [sqC]) (by norm_num [sqC])
      (by norm_num [ddx, Rect.cx, sqA, sqC])
      (by norm_num [aspectOk, rabs, ddx, ddy, Rect.cx, Rect.cy, sqA, sqC])
      (by norm_num [aspectOk, rabs, ddx, ddy, Rect.cx, Rect.cy, sqA, sqC])

/-- Counterexample for C1 as stated: for two wide flat rectangles with
positive width and height, distinct centers and a nonzero direction, the
clipped start point (1, 3/10) lands strictly outside its rectangle (whose
top edge is at y = 1/10), past the corner. -/
theorem clip_outside_corner_cex :
    routeEndpoints wideS wideE = .ok (⟨1, 3/10⟩, ⟨2, 4/5⟩) ∧
    ¬ onBoundary wideS ⟨1, 3/10⟩ := by
  constructor
  · norm_num [routeEndpoints, ddx, ddy, Rect.cx, Rect.cy, rabs, wideS, wideE]
  · intro hc
    rcases hc with ⟨⟨_, _, _, hy⟩, _⟩
    norm_num [wideS] at hy

/-- C10: the crow's foot for unit direction (udx, udy) consists of three
segments all anchored at the clipped endpoint, with foot size 1/100 (the
source constant 0.01): a straight back tine and two slanted tines offset
by the perpendicular (-udy, udx); the two slanted tine tips are exact
mirror images of each other across the connector axis. -/
theorem crowFoot_shape_mirror (ex ey udx udy : ℚ)
    (h : udx ^ 2 + udy ^ 2 = 1) :
    (∀ sg ∈ crowFootSegs ex ey udx udy, sg.a = ⟨ex, ey⟩) ∧
    crowFootSegs ex ey udx udy =
      [⟨⟨ex, ey⟩, ⟨ex - udx * (1/100), ey - udy * (1/100)⟩⟩,
       ⟨⟨ex, ey⟩, ⟨ex - udx * (1/100) + -udy * (1/100),
                   ey - udy * (1/100) + udx * (1/100)⟩⟩,
       ⟨⟨ex, ey⟩, ⟨ex - udx * (1/100) - -udy * (1/100),
                   ey - udy * (1/100) - udx * (1/100)⟩⟩] ∧
    reflectAcross ⟨ex, ey⟩ ⟨udx, udy⟩
        ⟨ex - udx * (1/100) + -udy * (1/100),
         ey - udy * (1/100) + udx * (1/100)⟩ =
      ⟨ex - udx * (1/100) - -udy * (1/100),
       ey - udy * (1/100) - udx * (1/100)⟩ := by
  refine ⟨?_, rfl, ?_⟩
  · intro sg hsg
    simp only [crowFootSegs, List.mem_cons, List.not_mem_nil, or_false] at hsg
    rcases hsg with rfl | rfl | rfl <;> rfl
  · simp only [reflectAcross]
    rw [Point.mk.injEq]
    constructor
    · linear_combination (-udx / 50) * h
    · linear_combination (-udy / 50) * h

/-- Witness for C10 at the concrete unit direction (1, 0). -/
theorem crowFoot_shape_mirror_w :
    (1 : ℚ) ^ 2 + (0 : ℚ) ^ 2 = 1 ∧
    reflectAcross ⟨0, 0⟩ ⟨1, 0⟩
        ⟨0 - 1 * (1/100) + -0 * (1/100), 0 - 0 * (1/100) + 1 * (1/100)⟩ =
      ⟨0 - 1 * (1/100) - -0 * (1/100), 0 - 0 * (1/100) - 1 * (1/100)⟩ :=
  ⟨by norm_num, (crowFoot_shape_mirror 0 0 1 0 (by norm_num)).2.2⟩
